import Mathlib

set_option linter.unusedVariables false

/-!
Verification of the spatial candidate-generation and demand-gap engine of the
streamlit irrigation dashboard (`geodash/data/mockup.py`), together with the
geometry helpers it relies on (`_point_in_polygon_simple` in
`geodash/data/mockup.py`, and the complete ray-casting routine
`_point_in_polygon` in `geodash/pages/fields_analysis.py`).

Modelling conventions:
* Python floats are modelled as rationals (`ℚ`); machine rounding is not
  modelled.  `round(x, d)` is modelled as round-half-up at `d` decimals
  (`roundTo`), `int(x)` as truncation toward zero (`pyInt`); both agree with
  Python except on exact representation ties that floats cannot hit exactly.
* `numpy` square-root comparisons `sqrt(e) < c` (with `c > 0`, `e ≥ 0`) are
  modelled by the exactly equivalent squared comparison `e < c^2`.
* The random generator (`np.random.default_rng(42)`) is modelled as an
  explicit stream of per-attempt draw records (`Draw`), one consumed per
  attempt of the rejection-sampling loop.  A draw record carries the unit
  direction vector `(cos θ, sin θ)` as a rational pair together with the
  buffer offset and the attribute draws; `validDraw` records the ranges the
  generator guarantees.
* pandas DataFrames are modelled as lists of records; `df.sort_values` is
  modelled with `List.insertionSort` (the sortedness/permutation facts proved
  below are independent of the tie-breaking order).
-/

namespace Geodash

/-- A planar (latitude, longitude) pair in degrees. -/
abbrev Coord := ℚ × ℚ

/-- Embeds one field polygon dictionary (keys `name`, `region`,
`coordinates`) as consumed by `generate_potential_wells` and
`calculate_water_demand_gap`.  The `coordinates` value is the ordered ring of
`[lat, lon]` vertices; a missing `coordinates` key is modelled by the empty
list (the code reads `field.get('coordinates', [])`). -/
structure Field where
  name : String
  region : String
  coordinates : List Coord
deriving DecidableEq

/-- Embeds one row of `existing_wells_df` (only the columns the engine
reads: `lat`, `lon`, `survived`). -/
structure Well where
  lat : ℚ
  lon : ℚ
  survived : Bool
deriving DecidableEq

/-- The depth category drawn by `rng.choice(['shallow','medium','deep'])`. -/
inductive DepthCategory where
  | shallow
  | medium
  | deep
deriving DecidableEq

/-- One attempt's worth of random draws of the rejection-sampling loop in
`generate_potential_wells`.  `c`/`s` stand for `cos(angle)`/`sin(angle)` of
the drawn angle, `u` for `rng.uniform(min_distance_deg, max_distance_deg)`,
and the remaining fields for the attribute draws that the code performs only
on accepted candidates (modelling them per attempt is observationally
equivalent because the stream is quantified over). -/
structure Draw where
  c : ℚ
  s : ℚ
  u : ℚ
  cat : DepthCategory
  depth : ℤ
  prob : ℚ
  yld : ℚ
  pump : ℚ
deriving DecidableEq

/-- Ranges guaranteed by the numpy generator calls that produce a `Draw`:
`(c, s)` is a point of the unit circle, `u ∈ [0.001, 0.027)`,
`pump ∈ [30000, 60000)`, and depth/probability/yield lie in the ranges of the
drawn category (shallow 40–60 / 0.55–0.70 / 4–7, medium 60–100 / 0.70–0.85 /
7–12, deep 100–150 / 0.75–0.90 / 10–16). -/
def validDraw (d : Draw) : Bool :=
  decide (d.c ^ 2 + d.s ^ 2 = 1) &&
  decide (1 / 1000 ≤ d.u) && decide (d.u < 27 / 1000) &&
  decide ((30000 : ℚ) ≤ d.pump) && decide (d.pump < 60000) &&
  (match d.cat with
   | .shallow =>
       decide ((40 : ℤ) ≤ d.depth) && decide (d.depth < 60) &&
       decide ((11 / 20 : ℚ) ≤ d.prob) && decide (d.prob < 7 / 10) &&
       decide ((4 : ℚ) ≤ d.yld) && decide (d.yld < 7)
   | .medium =>
       decide ((60 : ℤ) ≤ d.depth) && decide (d.depth < 100) &&
       decide ((7 / 10 : ℚ) ≤ d.prob) && decide (d.prob < 17 / 20) &&
       decide ((7 : ℚ) ≤ d.yld) && decide (d.yld < 12)
   | .deep =>
       decide ((100 : ℤ) ≤ d.depth) && decide (d.depth < 150) &&
       decide ((3 / 4 : ℚ) ≤ d.prob) && decide (d.prob < 9 / 10) &&
       decide ((10 : ℚ) ≤ d.yld) && decide (d.yld < 16))

/-- Embeds one row of the potential-wells DataFrame built by
`generate_potential_wells` (all columns). -/
structure PotentialWell where
  potential_id : String
  lat : ℚ
  lon : ℚ
  field_name : String
  region : String
  recommended_depth_m : ℤ
  depth_category : DepthCategory
  success_probability : ℚ
  expected_water_yield_m3h : ℚ
  estimated_cost_thb : ℤ
  drilling_cost_thb : ℤ
  priority_score : ℚ
deriving DecidableEq

/-- Embeds one row of the demand-gap DataFrame built by
`calculate_water_demand_gap` (all columns). -/
structure GapRecord where
  field_name : String
  region : String
  area_rai : ℚ
  water_demand_m3_day : ℚ
  current_supply_m3_day : ℚ
  water_gap_m3_day : ℚ
  gap_percentage : ℚ
  existing_wells_nearby : ℕ
  successful_wells_nearby : ℕ
  potential_wells_available : ℕ
  potential_additional_supply_m3_day : ℚ
  gap_after_drilling : ℚ
  priority_level : String
deriving DecidableEq

/-- Python's `round(q, d)` modelled on rationals: round to `d` decimal
places (half-up; Python uses half-even on binary floats, which differs only
on representation ties). -/
def roundTo (q : ℚ) (d : ℕ) : ℚ :=
  (⌊q * 10 ^ d + 1 / 2⌋ : ℚ) / 10 ^ d

/-- Python's `int(q)`: truncation toward zero. -/
def pyInt (q : ℚ) : ℤ :=
  if 0 ≤ q then ⌊q⌋ else ⌈q⌉

/-- Python truthiness of an optional boolean, as used by
`if inside_field:` on the value returned by `_point_in_polygon_simple`
(`None` is falsy). -/
def pyTruthy : Option Bool → Bool
  | none => false
  | some b => b

/-- Zero-pad a numeral string to width 4 (Python `f"{n:04d}"` for `n ≥ 0`). -/
def pad4 (n : ℕ) : String :=
  let s := toString n
  String.mk (List.replicate (4 - s.length) '0') ++ s

/-- The identifier Python builds as `f"POT-{i+1:04d}"` for index `i`. -/
def potId (i : ℕ) : String :=
  "POT-" ++ pad4 (i + 1)

/-- Minimum of a list of rationals (`min(xs)` in Python; total with default
`0` on the empty list, which the engine never passes). -/
def listMin : List ℚ → ℚ
  | [] => 0
  | x :: xs => xs.foldl min x

/-- Maximum of a list of rationals (`max(xs)` in Python). -/
def listMax : List ℚ → ℚ
  | [] => 0
  | x :: xs => xs.foldl max x

/-- Squared planar distance between two coordinate pairs.  All distance
thresholds in the source compare `np.sqrt` of this quantity against a
positive constant; we compare the square against the squared constant, which
is exactly equivalent. -/
def distSq (a b : Coord) : ℚ :=
  (a.1 - b.1) ^ 2 + (a.2 - b.2) ^ 2

/-- Embeds `_point_in_polygon_simple` from `geodash/data/mockup.py`
(lines 351–368).  The function's body consists solely of the two assignments
`x, y = lon, lat` and `n = len(polygon_coords)`; control then falls off the
end of the function, so Python returns `None` for every input.  We model the
returned value as `none : Option Bool` (see `pyTruthy` for how the caller's
`if inside_field:` treats it). -/
def point_in_polygon_simple (lat lon : ℚ) (polygon_coords : List Coord) :
    Option Bool :=
  none

/-- Embeds the complete ray-casting routine `_point_in_polygon` from
`geodash/pages/fields_analysis.py` (lines 418–446), the repository's working
reference for geometric containment: vertices are read as
`(x, y) = (lon, lat)`, the loop walks the closed ring
`coords[1], …, coords[n-1], coords[0]` and flips `inside` on each crossing.
Inner step of the loop; `p1`/`p2` are in `(x, y)` order. -/
def rayCastStep (x y : ℚ) (p1 p2 : ℚ × ℚ) (inside : Bool) : Bool :=
  if min p1.2 p2.2 < y then
    if y ≤ max p1.2 p2.2 then
      if x ≤ max p1.1 p2.1 then
        if p1.1 = p2.1 ∨ x ≤ (y - p1.2) * (p2.1 - p1.1) / (p2.2 - p1.2) + p1.1
        then !inside else inside
      else inside
    else inside
  else inside

/-- Loop of `_point_in_polygon` (fields_analysis version), folding
`rayCastStep` over the edge list. -/
def rayCastLoop (x y : ℚ) : List (ℚ × ℚ) → (ℚ × ℚ) → Bool → Bool
  | [], _, inside => inside
  | p2 :: rest, p1, inside => rayCastLoop x y rest p2 (rayCastStep x y p1 p2 inside)

/-- Ray-casting containment test, embedding `_point_in_polygon` from
`geodash/pages/fields_analysis.py`: true iff `(lat, lon)` is inside the ring
(given as `[lat, lon]` vertices). -/
def rayCastInside (lat lon : ℚ) (ring : List Coord) : Bool :=
  match ring with
  | [] => false
  | p0 :: rest =>
      rayCastLoop lon lat (((rest ++ [p0]).map (fun v => (v.2, v.1))))
        (p0.2, p0.1) false

/-- Modelled from the spec (§4.1): the crossing-number / ray-casting test —
whether the horizontal ray from the point crosses one directed edge, working
over planar `(lon, lat)` coordinates.  Edge endpoints are `[lat, lon]`
vertices; the half-open vertical span rule is the standard crossing-number
convention. -/
def specEdgeCrossed (lat lon : ℚ) (e : Coord × Coord) : Bool :=
  let x := lon
  let y := lat
  let x1 := e.1.2
  let y1 := e.1.1
  let x2 := e.2.2
  let y2 := e.2.1
  decide ((y1 ≤ y ∧ y < y2) ∨ (y2 ≤ y ∧ y < y1)) &&
  decide (x < x1 + (y - y1) * (x2 - x1) / (y2 - y1))

/-- The directed edges of a ring, closing it back to the first vertex. -/
def ringEdges (ring : List Coord) : List (Coord × Coord) :=
  match ring with
  | [] => []
  | p :: rest => ring.zip ((p :: rest).tail ++ [p])

/-- Modelled from the spec (§4.1 and C2's wording): the number of times the
horizontal ray from the point crosses the ring's edges. -/
def specCrossingCount (lat lon : ℚ) (ring : List Coord) : ℕ :=
  ((ringEdges ring).filter (specEdgeCrossed lat lon)).length

/-- Modelled from the spec: crossing-number containment — true exactly when
the horizontal ray from the point crosses the ring's edges an odd number of
times. -/
def specCrossingParity (lat lon : ℚ) (ring : List Coord) : Bool :=
  specCrossingCount lat lon ring % 2 == 1

/-- The spacing threshold `0.0005` (degrees) against previously accepted
candidates (`# ~50m minimum spacing`). -/
def minSpacing : ℚ := 5 / 10000

/-- The spacing threshold `0.001` (degrees) against existing wells
(`# Too close to existing well`). -/
def wellSpacing : ℚ := 1 / 1000

/-- Per-field geometry precomputed at the top of the field loop of
`generate_potential_wells`: centroid (arithmetic vertex mean) and half of the
larger bounding-box span. -/
structure FieldGeom where
  clat : ℚ
  clon : ℚ
  halfspan : ℚ

/-- Embeds lines 229–239 of `generate_potential_wells`: bounds, centroid and
field size of a field's coordinate ring. -/
def geomOf (f : Field) : FieldGeom :=
  let lats := f.coordinates.map Prod.fst
  let lons := f.coordinates.map Prod.snd
  { clat := lats.sum / lats.length
    clon := lons.sum / lons.length
    halfspan := max (listMax lats - listMin lats) (listMax lons - listMin lons) / 2 }

/-- Embeds lines 249–265: the candidate position of one attempt, placed at
`centroid + buffer · (cos θ, sin θ)` with
`buffer = max(field_height, field_width)/2 + u`. -/
def candidatePoint (g : FieldGeom) (d : Draw) : Coord :=
  let buffer := g.halfspan + d.u
  (g.clat + buffer * d.c, g.clon + buffer * d.s)

/-- Embeds lines 292–331: attribute draws, costs and the priority score of an
accepted candidate, appended as a row whose id is
`f"POT-{len(potential_wells)+1:04d}"`. -/
def mkSite (f : Field) (d : Draw) (poolLen : ℕ) (pt : Coord) : PotentialWell :=
  let drilling : ℤ := d.depth * 1200
  let total : ℚ := (drilling : ℚ) + d.pump
  let score : ℚ := (d.prob * d.yld) / (total / 100000)
  { potential_id := potId poolLen
    lat := pt.1
    lon := pt.2
    field_name := f.name
    region := f.region
    recommended_depth_m := d.depth
    depth_category := d.cat
    success_probability := roundTo d.prob 2
    expected_water_yield_m3h := roundTo d.yld 1
    estimated_cost_thb := pyInt total
    drilling_cost_thb := drilling
    priority_score := roundTo score 2 }

/-- One attempt of the rejection-sampling loop (lines 246–333): the candidate
is dropped when `_point_in_polygon_simple` is truthy, when it is within
`0.0005°` of a previously accepted candidate (the code guards this check by
`len(potential_wells) > 0`, which coincides with `List.any` on the empty
pool), or when it is within `0.001°` of an existing well (likewise guarded by
`not existing_wells_df.empty`).  The `np.sqrt(…) < c` comparisons are modelled
by the equivalent squared comparisons. -/
def attemptCandidate (f : Field) (g : FieldGeom) (wells : List Well)
    (pool : List PotentialWell) (d : Draw) : Option PotentialWell :=
  if pyTruthy (point_in_polygon_simple (candidatePoint g d).1
      (candidatePoint g d).2 f.coordinates) then
    none
  else if pool.any
      (fun w => distSq (w.lat, w.lon) (candidatePoint g d) < minSpacing ^ 2) then
    none
  else if wells.any
      (fun w => distSq (w.lat, w.lon) (candidatePoint g d) < wellSpacing ^ 2) then
    none
  else
    some (mkSite f d pool.length (candidatePoint g d))

/-- The mutable state of the sampling loops: the pooled accepted candidates
(`potential_wells`, across all fields) and the index of the next draw record
of the random stream. -/
structure GenState where
  pool : List PotentialWell
  k : ℕ
deriving DecidableEq

/-- Embeds the `while field_well_count < wells_per_field and attempts <
max_attempts` loop (lines 246–333), with the remaining attempt budget as
fuel (`max_attempts = wells_per_field * 20`) and `got` as
`field_well_count`. -/
def fieldAttempts (f : Field) (g : FieldGeom) (wells : List Well)
    (quota : ℕ) (draws : ℕ → Draw) : ℕ → ℕ → GenState → GenState
  | 0, _, st => st
  | fuel + 1, got, st =>
    if got < quota then
      match attemptCandidate f g wells st.pool (draws st.k) with
      | some w =>
          fieldAttempts f g wells quota draws fuel (got + 1)
            ⟨st.pool ++ [w], st.k + 1⟩
      | none =>
          fieldAttempts f g wells quota draws fuel got ⟨st.pool, st.k + 1⟩
    else st

/-- Embeds the body of `for field_idx, field in enumerate(field_polygons)`:
fields whose ring is missing or has fewer than 3 vertices are skipped
(lines 225–227), the rest run the attempt loop. -/
def genStep (wells : List Well) (quota : ℕ) (draws : ℕ → Draw)
    (st : GenState) (f : Field) : GenState :=
  if f.coordinates.length < 3 then st
  else fieldAttempts f (geomOf f) wells quota draws (quota * 20) 0 st

/-- The pooled sampling pass of `generate_potential_wells` over all fields,
given the per-field quota `wells_per_field`. -/
def genPool (fields : List Field) (wells : List Well) (quota : ℕ)
    (draws : ℕ → Draw) : GenState :=
  fields.foldl (genStep wells quota draws) ⟨[], 0⟩

/-- Replace a site's identifier (used by the final
`potential_df['potential_id'] = [f'POT-{i+1:04d}' …]` reindexing). -/
def setId (p : PotentialWell) (i : ℕ) : PotentialWell :=
  { p with potential_id := potId i }

/-- Reassign sequential identifiers in list order starting at index `i`. -/
def reassignIds : ℕ → List PotentialWell → List PotentialWell
  | _, [] => []
  | i, w :: ws => setId w i :: reassignIds (i + 1) ws

/-- Descending priority-score order used by
`potential_df.sort_values('priority_score', ascending=False)`. -/
def scoreRel (a b : PotentialWell) : Prop :=
  b.priority_score ≤ a.priority_score

instance : DecidableRel scoreRel := fun a b =>
  inferInstanceAs (Decidable (b.priority_score ≤ a.priority_score))

instance : IsTotal PotentialWell scoreRel :=
  ⟨fun a b => le_total b.priority_score a.priority_score⟩

instance : IsTrans PotentialWell scoreRel :=
  ⟨fun _ _ _ h₁ h₂ => le_trans h₂ h₁⟩

/-- Embeds lines 335–346: sort the pooled candidates by descending priority
score, truncate to `num_suggestions`, and reassign sequential identifiers in
rank order.  (On an empty pool the code returns the empty frame directly;
sorting/truncating the empty list yields the same result.) -/
def finalize (numSuggestions : ℕ) (pool : List PotentialWell) :
    List PotentialWell :=
  reassignIds 0 ((pool.insertionSort scoreRel).take numSuggestions)

/-- Embeds `generate_potential_wells(field_polygons, existing_wells_df,
num_suggestions)` (lines 198–348), parameterized by the random stream of the
generator seeded at line 215. -/
def generate_potential_wells (fields : List Field) (wells : List Well)
    (numSuggestions : ℕ) (draws : ℕ → Draw) : List PotentialWell :=
  if fields.isEmpty then []
  else
    finalize numSuggestions
      (genPool fields wells (max 1 (numSuggestions / fields.length)) draws).pool

/-- The radius `0.045` (degrees, ~5 km) used to collect nearby wells in
`calculate_water_demand_gap`. -/
def nearbyRadius : ℚ := 45 / 1000

/-- Centroid of a ring as computed in `calculate_water_demand_gap`
(lines 397–398): arithmetic mean of vertices. -/
def centroidOf (coords : List Coord) : Coord :=
  ((coords.map Prod.fst).sum / coords.length,
   (coords.map Prod.snd).sum / coords.length)

/-- Embeds lines 402–408: bounding-box area in square degrees, converted to
hectares with the factor `111 * 111` and to rai with `6.25`. -/
def areaRaiOf (coords : List Coord) : ℚ :=
  let lats := coords.map Prod.fst
  let lons := coords.map Prod.snd
  ((listMax lats - listMin lats) * (listMax lons - listMin lons)) * 111 * 111
    * (25 / 4)

/-- Embeds line 411: water demand `area_rai * 25` (m³/day). -/
def waterDemandOf (coords : List Coord) : ℚ :=
  areaRaiOf coords * 25

/-- Embeds lines 414–419: existing wells within planar distance `0.045` of
the field centroid (squared comparison; on an empty well list the code's
`not existing_wells_df.empty` branch coincides with filtering the empty
list). -/
def nearbyWellsOf (wells : List Well) (coords : List Coord) : List Well :=
  wells.filter (fun w => distSq (w.lat, w.lon) (centroidOf coords) < nearbyRadius ^ 2)

/-- Embeds line 420: the nearby wells that survived. -/
def successfulNearbyOf (wells : List Well) (coords : List Coord) : List Well :=
  (nearbyWellsOf wells coords).filter (fun w => w.survived)

/-- Embeds line 423: current supply `len(successful_wells) * 8 * 8`. -/
def currentSupplyOf (wells : List Well) (coords : List Coord) : ℚ :=
  ((successfulNearbyOf wells coords).length : ℚ) * 8 * 8

/-- Embeds line 430: `water_gap = max(0, demand - supply)`. -/
def waterGapOf (wells : List Well) (coords : List Coord) : ℚ :=
  max 0 (waterDemandOf coords - currentSupplyOf wells coords)

/-- Embeds line 431: `gap_percentage = gap / demand * 100` when the demand is
positive, else `0`. -/
def gapPctOf (wells : List Well) (coords : List Coord) : ℚ :=
  if 0 < waterDemandOf coords then
    waterGapOf wells coords / waterDemandOf coords * 100
  else 0

/-- Embeds lines 435–437: the potential sites assigned to a field are the
rows whose `field_name` equals the field's name. -/
def assignedSites (pot : List PotentialWell) (f : Field) : List PotentialWell :=
  pot.filter (fun p => p.field_name == f.name)

/-- Embeds lines 440–449: additional supply `sum(yields) * 8` when the field
has assigned sites, else `0` (the `potential_wells_df.empty` branch coincides
with the empty assigned set). -/
def potSupplyOf (pot : List PotentialWell) (f : Field) : ℚ :=
  if 0 < (assignedSites pot f).length then
    ((assignedSites pot f).map (fun p => p.expected_water_yield_m3h)).sum * 8
  else 0

/-- Embeds lines 440–449: `gap_after_drilling = max(0, gap - potential_supply)`
when the field has assigned sites, else the gap unchanged. -/
def gapAfterOf (wells : List Well) (pot : List PotentialWell) (f : Field) : ℚ :=
  if 0 < (assignedSites pot f).length then
    max 0 (waterGapOf wells f.coordinates - potSupplyOf pot f)
  else waterGapOf wells f.coordinates

/-- Embeds lines 451–459: the priority tier from the (unrounded) gap
percentage and the assigned-site count. -/
def tierOf (pct : ℚ) (n : ℕ) : String :=
  if 70 < pct ∧ 0 < n then "Critical"
  else if 50 < pct ∧ 0 < n then "High"
  else if 30 < pct then "Medium"
  else "Low"

/-- Embeds lines 461–475: the record appended for one field (rounded exactly
where the source rounds). -/
def recordFor (wells : List Well) (pot : List PotentialWell) (f : Field) :
    GapRecord :=
  { field_name := f.name
    region := f.region
    area_rai := roundTo (areaRaiOf f.coordinates) 2
    water_demand_m3_day := roundTo (waterDemandOf f.coordinates) 1
    current_supply_m3_day := roundTo (currentSupplyOf wells f.coordinates) 1
    water_gap_m3_day := roundTo (waterGapOf wells f.coordinates) 1
    gap_percentage := roundTo (gapPctOf wells f.coordinates) 1
    existing_wells_nearby := (nearbyWellsOf wells f.coordinates).length
    successful_wells_nearby := (successfulNearbyOf wells f.coordinates).length
    potential_wells_available := (assignedSites pot f).length
    potential_additional_supply_m3_day := roundTo (potSupplyOf pot f) 1
    gap_after_drilling := roundTo (gapAfterOf wells pot f) 1
    priority_level := tierOf (gapPctOf wells f.coordinates) ((assignedSites pot f).length) }

/-- Descending order on the stored (rounded) gap percentage, used by
`df.sort_values('gap_percentage', ascending=False)`. -/
def gapRel (a b : GapRecord) : Prop :=
  b.gap_percentage ≤ a.gap_percentage

instance : DecidableRel gapRel := fun a b =>
  inferInstanceAs (Decidable (b.gap_percentage ≤ a.gap_percentage))

instance : IsTotal GapRecord gapRel :=
  ⟨fun a b => le_total b.gap_percentage a.gap_percentage⟩

instance : IsTrans GapRecord gapRel :=
  ⟨fun _ _ _ h₁ h₂ => le_trans h₂ h₁⟩

/-- Embeds `calculate_water_demand_gap(field_polygons, existing_wells_df,
potential_wells_df)` (lines 370–481): one record per field with at least 3
ring vertices, sorted by descending gap percentage. -/
def calculate_water_demand_gap (fields : List Field) (wells : List Well)
    (pot : List PotentialWell) : List GapRecord :=
  ((fields.filter (fun f => 3 ≤ f.coordinates.length)).map
      (recordFor wells pot)).insertionSort gapRel

/-- The engine pipeline as invoked by the dashboard: generate the ranked
candidates, then compute the demand-gap records from the same inputs and the
generated candidates. -/
def runPipeline (fields : List Field) (wells : List Well)
    (numSuggestions : ℕ) (draws : ℕ → Draw) :
    List PotentialWell × List GapRecord :=
  let g := generate_potential_wells fields wells numSuggestions draws
  (g, calculate_water_demand_gap fields wells g)

/-- Position of a candidate site. -/
def sitePos (p : PotentialWell) : Coord := (p.lat, p.lon)

/-- All row data of a candidate site except its (reassignable) identifier. -/
def siteData (p : PotentialWell) :
    Coord × String × String × ℤ × DepthCategory × ℚ × ℚ × ℤ × ℤ × ℚ :=
  (sitePos p, p.field_name, p.region, p.recommended_depth_m, p.depth_category,
   p.success_probability, p.expected_water_yield_m3h, p.estimated_cost_thb,
   p.drilling_cost_thb, p.priority_score)

lemma distSq_comm (a b : Coord) : distSq a b = distSq b a := by
  simp only [distSq]; ring

lemma distSq_nonneg (a b : Coord) : 0 ≤ distSq a b := by
  simp only [distSq]
  positivity

lemma roundTo_nonneg {q : ℚ} (d : ℕ) (h : 0 ≤ q) : 0 ≤ roundTo q d := by
  unfold roundTo
  apply div_nonneg _ (by positivity)
  have : (0 : ℚ) ≤ q * 10 ^ d + 1 / 2 := by positivity
  exact_mod_cast Int.floor_nonneg.mpr this

lemma roundTo_mono {a b : ℚ} (d : ℕ) (h : a ≤ b) : roundTo a d ≤ roundTo b d := by
  unfold roundTo
  apply div_le_div_of_nonneg_right _ (by positivity)
  have : a * 10 ^ d + 1 / 2 ≤ b * 10 ^ d + 1 / 2 := by
    have : a * 10 ^ d ≤ b * 10 ^ d := by
      apply mul_le_mul_of_nonneg_right h (by positivity)
    linarith
  exact_mod_cast Int.floor_le_floor this

lemma sitePos_setId (p : PotentialWell) (i : ℕ) : sitePos (setId p i) = sitePos p := rfl

lemma siteData_setId (p : PotentialWell) (i : ℕ) : siteData (setId p i) = siteData p := rfl

lemma length_reassignIds : ∀ (i : ℕ) (l : List PotentialWell),
    (reassignIds i l).length = l.length
  | _, [] => rfl
  | i, _ :: ws => by simp [reassignIds, length_reassignIds (i + 1) ws]

lemma mem_reassignIds {p : PotentialWell} :
    ∀ {i : ℕ} {l : List PotentialWell}, p ∈ reassignIds i l →
      ∃ q ∈ l, ∃ j, p = setId q j := by
  intro i l
  induction l generalizing i with
  | nil => intro h; simp [reassignIds] at h
  | cons w ws ih =>
      intro h
      simp only [reassignIds, List.mem_cons] at h
      rcases h with h | h
      · exact ⟨w, List.mem_cons_self w ws, i, h⟩
      · obtain ⟨q, hq, j, hj⟩ := ih h
        exact ⟨q, List.mem_cons_of_mem w hq, j, hj⟩

lemma pairwise_reassignIds {R : PotentialWell → PotentialWell → Prop}
    (hR : ∀ p q i j, R p q → R (setId p i) (setId q j)) :
    ∀ (i : ℕ) {l : List PotentialWell}, l.Pairwise R →
      (reassignIds i l).Pairwise R := by
  intro i l
  induction l generalizing i with
  | nil => intro _; simp [reassignIds]
  | cons w ws ih =>
      intro h
      rcases List.pairwise_cons.mp h with ⟨hw, hws⟩
      refine List.pairwise_cons.mpr ⟨?_, ih (i + 1) hws⟩
      intro x hx
      obtain ⟨q, hq, j, rfl⟩ := mem_reassignIds hx
      exact hR w q i j (hw q hq)

lemma map_data_reassignIds : ∀ (i : ℕ) (l : List PotentialWell),
    (reassignIds i l).map siteData = l.map siteData
  | _, [] => rfl
  | i, w :: ws => by
      simp [reassignIds, map_data_reassignIds (i + 1) ws, siteData_setId]

lemma map_id_reassignIds : ∀ (i : ℕ) (l : List PotentialWell),
    (reassignIds i l).map (fun p => p.potential_id) =
      (List.range l.length).map (fun j => potId (i + j))
  | _, [] => rfl
  | i, w :: ws => by
      rw [reassignIds, List.map_cons, map_id_reassignIds (i + 1) ws,
        List.length_cons, List.range_succ_eq_map, List.map_cons, List.map_map]
      refine congrArg₂ List.cons (by simp [setId]) ?_
      refine List.map_congr_left fun j _ => ?_
      simp only [Function.comp]
      congr 1
      omega

lemma foldl_preserve {σ α : Type} (P : σ → Prop) {step : σ → α → σ}
    (h : ∀ s a, P s → P (step s a)) :
    ∀ (l : List α) (s : σ), P s → P (l.foldl step s)
  | [], _, hs => hs
  | a :: l, s, hs => foldl_preserve P h l (step s a) (h s a hs)

lemma attemptCandidate_eq_some {f : Field} {g : FieldGeom} {wells : List Well}
    {pool : List PotentialWell} {d : Draw} {w : PotentialWell}
    (h : attemptCandidate f g wells pool d = some w) :
    w = mkSite f d pool.length (candidatePoint g d) ∧
    (∀ p ∈ pool, minSpacing ^ 2 ≤ distSq (p.lat, p.lon) (candidatePoint g d)) ∧
    (∀ x ∈ wells, wellSpacing ^ 2 ≤ distSq (x.lat, x.lon) (candidatePoint g d)) := by
  unfold attemptCandidate at h
  split at h
  · exact absurd h (by simp)
  split at h
  · exact absurd h (by simp)
  split at h
  · exact absurd h (by simp)
  rename_i h₁ h₂ h₃
  refine ⟨(Option.some_inj.mp h).symm, ?_, ?_⟩
  · intro p hp
    refine le_of_not_lt fun hlt => h₂ ?_
    exact List.any_eq_true.mpr ⟨p, hp, by simpa using hlt⟩
  · intro x hx
    refine le_of_not_lt fun hlt => h₃ ?_
    exact List.any_eq_true.mpr ⟨x, hx, by simpa using hlt⟩

/-- The pool invariant maintained by the sampling loops: accepted candidates
are pairwise at squared distance at least `minSpacing²` and at squared
distance at least `wellSpacing²` from every existing well. -/
def goodPool (wells : List Well) (pool : List PotentialWell) : Prop :=
  pool.Pairwise (fun p q => minSpacing ^ 2 ≤ distSq (sitePos p) (sitePos q)) ∧
  ∀ p ∈ pool, ∀ w ∈ wells, wellSpacing ^ 2 ≤ distSq (sitePos p) (w.lat, w.lon)

lemma goodPool_nil (wells : List Well) : goodPool wells [] :=
  ⟨List.Pairwise.nil, by simp⟩

lemma goodPool_append {wells : List Well} {pool : List PotentialWell}
    {w : PotentialWell} (hg : goodPool wells pool)
    (h₁ : ∀ p ∈ pool, minSpacing ^ 2 ≤ distSq (sitePos p) (sitePos w))
    (h₂ : ∀ x ∈ wells, wellSpacing ^ 2 ≤ distSq (sitePos w) (x.lat, x.lon)) :
    goodPool wells (pool ++ [w]) := by
  constructor
  · refine List.pairwise_append.mpr ⟨hg.1, List.pairwise_singleton _ _, ?_⟩
    intro a ha b hb
    rcases List.mem_singleton.mp hb with rfl
    exact h₁ a ha
  · intro p hp x hx
    rcases List.mem_append.mp hp with hp | hp
    · exact hg.2 p hp x hx
    · rcases List.mem_singleton.mp hp with rfl
      exact h₂ x hx

lemma fieldAttempts_good {f : Field} {g : FieldGeom} {wells : List Well}
    {quota : ℕ} {draws : ℕ → Draw} :
    ∀ (fuel got : ℕ) (st : GenState), goodPool wells st.pool →
      goodPool wells (fieldAttempts f g wells quota draws fuel got st).pool := by
  intro fuel
  induction fuel with
  | zero => intro got st h; exact h
  | succ n ih =>
      intro got st h
      rw [fieldAttempts]
      split
      · rcases hc : attemptCandidate f g wells st.pool (draws st.k) with _ | w
        · exact ih got _ h
        · refine ih (got + 1) _ ?_
          obtain ⟨rfl, h₁, h₂⟩ := attemptCandidate_eq_some hc
          refine goodPool_append h ?_ ?_
          · intro p hp
            simpa [sitePos, mkSite] using h₁ p hp
          · intro x hx
            have := h₂ x hx
            simpa [sitePos, mkSite, distSq_comm] using this
      · exact h

lemma genPool_good (fields : List Field) (wells : List Well) (quota : ℕ)
    (draws : ℕ → Draw) : goodPool wells (genPool fields wells quota draws).pool := by
  unfold genPool
  refine foldl_preserve (fun (st : GenState) => goodPool wells st.pool) ?_ fields _
    (goodPool_nil wells)
  intro st f h
  unfold genStep
  split
  · exact h
  · exact fieldAttempts_good _ _ st h

lemma generate_eq_finalize (fields : List Field) (wells : List Well)
    (numSuggestions : ℕ) (draws : ℕ → Draw) :
    generate_potential_wells fields wells numSuggestions draws =
      finalize numSuggestions
        (genPool fields wells (max 1 (numSuggestions / fields.length)) draws).pool := by
  unfold generate_potential_wells
  split
  · rename_i h
    rw [List.isEmpty_iff.mp h]
    simp [finalize, genPool, List.foldl_nil, reassignIds]
  · rfl

lemma finalize_mem {p : PotentialWell} {n : ℕ} {pool : List PotentialWell}
    (h : p ∈ finalize n pool) : ∃ q ∈ pool, ∃ j, p = setId q j := by
  unfold finalize at h
  obtain ⟨q, hq, j, hj⟩ := mem_reassignIds h
  refine ⟨q, ?_, j, hj⟩
  exact (List.mem_insertionSort scoreRel).mp (List.mem_of_mem_take hq)

lemma finalize_pairwise {R : PotentialWell → PotentialWell → Prop}
    (hsym : ∀ {p q}, R p q → R q p)
    (hid : ∀ p q i j, R p q → R (setId p i) (setId q j))
    {n : ℕ} {pool : List PotentialWell} (h : pool.Pairwise R) :
    (finalize n pool).Pairwise R := by
  unfold finalize
  refine pairwise_reassignIds hid 0 ?_
  refine List.Pairwise.sublist (List.take_sublist n _) ?_
  exact ((List.perm_insertionSort scoreRel pool).pairwise_iff @hsym).mpr h

/-- The triangular field used to exhibit the containment failure: vertices
`[0,0], [0,4], [10,2]`.  Its vertex centroid is `(10/3, 2)` while half the
larger bounding-box span is `5`, so a candidate placed due north of the
centroid at buffer `5 + 0.002` lands at latitude `10/3 + 5.002 ≈ 8.335`,
which is strictly inside the triangle. -/
def triField : Field := ⟨"Tri", "R", [(0, 0), (0, 4), (10, 2)]⟩

/-- A draw record within all generator ranges: direction
`(cos θ, sin θ) = (1, 0)` (angle `0`), buffer offset `0.002°`, medium depth
category with depth 80 m, probability 0.75, yield 10 m³/h, pump cost
40000. -/
def insideDraw : Draw := ⟨1, 0, 1 / 500, .medium, 80, 3 / 4, 10, 40000⟩

/-- The unit-square ring `[0,0], [0,1], [1,1], [1,0]`. -/
def unitSquareRing : List Coord := [(0, 0), (0, 1), (1, 1), (1, 0)]

/-- C1: the claim that every candidate produced by
`generate_potential_wells` lies outside its source field is false on the
code.  With the triangular field `triField`, no existing wells, one
requested suggestion and a legitimate draw (`validDraw` holds), the sampler
accepts exactly one candidate, and that candidate lies strictly inside the
field — both by the repository's own complete ray-casting routine
(`_point_in_polygon` of `fields_analysis.py`) and by the spec's
crossing-number test.  The rejection test cannot fire because
`_point_in_polygon_simple` returns `None` (falsy) for every input. -/
theorem C1_accepted_candidate_inside_source_field :
    validDraw insideDraw = true ∧
    (generate_potential_wells [triField] [] 1 (fun _ => insideDraw)).length = 1 ∧
    (generate_potential_wells [triField] [] 1 (fun _ => insideDraw)).all
      (fun p => rayCastInside p.lat p.lon triField.coordinates) = true ∧
    (generate_potential_wells [triField] [] 1 (fun _ => insideDraw)).all
      (fun p => specCrossingParity p.lat p.lon triField.coordinates) = true := by
  refine ⟨by norm_num [validDraw, insideDraw], ?_, ?_, ?_⟩ <;>
    norm_num [generate_potential_wells, genPool, genStep, fieldAttempts,
      attemptCandidate, geomOf, candidatePoint, mkSite, finalize, reassignIds,
      setId, triField, insideDraw, point_in_polygon_simple, pyTruthy, listMin,
      listMax, distSq, List.insertionSort, List.orderedInsert, rayCastInside,
      rayCastLoop, rayCastStep, specCrossingParity, specCrossingCount,
      ringEdges, specEdgeCrossed, List.filter]

/-- C2: the claim that `_point_in_polygon_simple` implements the
crossing-number / ray-casting boolean test is false on the code: the
function returns `None` for every input (its body stops after the two
opening assignments), so in particular at the centre of the unit square it
is falsy while the crossing-number parity — and the repository's complete
ray-casting routine in `fields_analysis.py` — both report containment. -/
theorem C2_containment_helper_returns_none :
    (∀ (lat lon : ℚ) (ring : List Coord),
        point_in_polygon_simple lat lon ring = none) ∧
    pyTruthy (point_in_polygon_simple (1 / 2) (1 / 2) unitSquareRing) = false ∧
    specCrossingParity (1 / 2) (1 / 2) unitSquareRing = true ∧
    rayCastInside (1 / 2) (1 / 2) unitSquareRing = true := by
  refine ⟨fun _ _ _ => rfl, rfl, ?_, ?_⟩
  · norm_num [specCrossingParity, specCrossingCount, ringEdges,
      specEdgeCrossed, unitSquareRing, List.filter]
  · norm_num [rayCastInside, rayCastLoop, rayCastStep, unitSquareRing]

/-- C3: every pair of distinct accepted candidates is at planar distance at
least `0.0005°` and every accepted candidate is at planar distance at least
`0.001°` from every existing well.  Distances are stated via their squares,
which for nonnegative quantities is exactly `distance ≥ c`, matching the
`np.sqrt(…) < c` rejection tests of lines 272–290. -/
theorem C3_spacing_invariants (fields : List Field) (wells : List Well)
    (numSuggestions : ℕ) (draws : ℕ → Draw) :
    (generate_potential_wells fields wells numSuggestions draws).Pairwise
      (fun p q => minSpacing ^ 2 ≤ distSq (sitePos p) (sitePos q)) ∧
    ∀ p ∈ generate_potential_wells fields wells numSuggestions draws,
      ∀ w ∈ wells, wellSpacing ^ 2 ≤ distSq (sitePos p) (w.lat, w.lon) := by
  rw [generate_eq_finalize]
  have hg := genPool_good fields wells (max 1 (numSuggestions / fields.length)) draws
  constructor
  · refine finalize_pairwise ?_ ?_ hg.1
    · intro p q h
      rwa [distSq_comm]
    · intro p q i j h
      simpa [sitePos_setId] using h
  · intro p hp w hw
    obtain ⟨q, hq, j, rfl⟩ := finalize_mem hp
    simpa [sitePos_setId] using hg.2 q hq w hw

/-- Witness for C3 at a concrete run. -/
theorem C3_spacing_invariants_witness :
    (generate_potential_wells [triField] [⟨20, 20, true⟩] 2
        (fun _ => insideDraw)).Pairwise
      (fun p q => minSpacing ^ 2 ≤ distSq (sitePos p) (sitePos q)) :=
  (C3_spacing_invariants [triField] [⟨20, 20, true⟩] 2 (fun _ => insideDraw)).1

/-- C4: the output of `generate_potential_wells` is sorted by descending
(rounded) priority score, has at most `num_suggestions` rows — exactly
`min num_suggestions poolSize` rows —, carries the sequential identifiers
`POT-0001, POT-0002, …` in rank order, and its row data (identifiers apart)
is a sub-permutation of the pool of candidates accepted across all
fields. -/
theorem C4_ranking_and_truncation (fields : List Field) (wells : List Well)
    (numSuggestions : ℕ) (draws : ℕ → Draw) :
    (generate_potential_wells fields wells numSuggestions draws).Pairwise scoreRel ∧
    (generate_potential_wells fields wells numSuggestions draws).length ≤
      numSuggestions ∧
    (generate_potential_wells fields wells numSuggestions draws).length =
      min numSuggestions
        (genPool fields wells (max 1 (numSuggestions / fields.length)) draws).pool.length ∧
    (generate_potential_wells fields wells numSuggestions draws).map
        (fun p => p.potential_id) =
      (List.range
        (generate_potential_wells fields wells numSuggestions draws).length).map potId ∧
    List.Subperm
      ((generate_potential_wells fields wells numSuggestions draws).map siteData)
      ((genPool fields wells (max 1 (numSuggestions / fields.length)) draws).pool.map
        siteData) := by
  rw [generate_eq_finalize]
  have hlen : (finalize numSuggestions
      (genPool fields wells (max 1 (numSuggestions / fields.length)) draws).pool).length =
      min numSuggestions
        (genPool fields wells (max 1 (numSuggestions / fields.length)) draws).pool.length := by
    unfold finalize
    rw [length_reassignIds, List.length_take, List.length_insertionSort]
  refine ⟨?_, ?_, hlen, ?_, ?_⟩
  · refine pairwise_reassignIds (fun p q i j h => h) 0 ?_
    refine List.Pairwise.sublist (List.take_sublist numSuggestions _) ?_
    exact List.sorted_insertionSort scoreRel _
  · rw [hlen]
    exact min_le_left _ _
  · unfold finalize
    rw [map_id_reassignIds, length_reassignIds]
    exact List.map_congr_left fun j _ => by rw [Nat.zero_add]
  · unfold finalize
    rw [map_data_reassignIds]
    exact List.Subperm.trans
      (List.Sublist.subperm ((List.take_sublist numSuggestions _).map siteData))
      (List.Perm.subperm ((List.perm_insertionSort scoreRel _).map siteData))

/-- Witness for C4 at a concrete run. -/
theorem C4_ranking_and_truncation_witness :
    (generate_potential_wells [triField] [] 1 (fun _ => insideDraw)).length ≤ 1 :=
  (C4_ranking_and_truncation [triField] [] 1 (fun _ => insideDraw)).2.1

/-- C5: the engine pipeline is a pure function of the field polygons, the
existing wells, the requested count and the random stream: two runs on equal
inputs produce equal ranked candidates and equal gap records.  The code
earns this by constructing a fresh generator from the fixed seed 42 inside
`generate_potential_wells` (line 215) and by using no other state, so the
draw stream is itself a function of the inputs. -/
theorem C5_pipeline_deterministic (f₁ f₂ : List Field) (w₁ w₂ : List Well)
    (n₁ n₂ : ℕ) (d₁ d₂ : ℕ → Draw) (hf : f₁ = f₂) (hw : w₁ = w₂)
    (hn : n₁ = n₂) (hd : d₁ = d₂) :
    runPipeline f₁ w₁ n₁ d₁ = runPipeline f₂ w₂ n₂ d₂ := by
  subst hf
  subst hw
  subst hn
  subst hd
  rfl

/-- Witness for C5 at a concrete input. -/
theorem C5_pipeline_deterministic_witness :
    runPipeline [triField] [] 5 (fun _ => insideDraw) =
      runPipeline [triField] [] 5 (fun _ => insideDraw) :=
  C5_pipeline_deterministic _ _ _ _ _ _ _ _ rfl rfl rfl rfl

lemma mem_assignedSites {pot : List PotentialWell} {f : Field}
    {p : PotentialWell} (h : p ∈ assignedSites pot f) : p ∈ pot :=
  (List.mem_filter.mp h).1

lemma potSupplyOf_nonneg {pot : List PotentialWell} {f : Field}
    (hy : ∀ p ∈ pot, 0 ≤ p.expected_water_yield_m3h) :
    0 ≤ potSupplyOf pot f := by
  unfold potSupplyOf
  split
  · refine mul_nonneg (List.sum_nonneg ?_) (by norm_num)
    intro x hx
    obtain ⟨p, hp, rfl⟩ := List.mem_map.mp hx
    exact hy p (mem_assignedSites hp)
  · exact le_refl 0

lemma recordFor_mem_calc {fields : List Field} {wells : List Well}
    {pot : List PotentialWell} {f : Field} (hf : f ∈ fields)
    (h3 : 3 ≤ f.coordinates.length) :
    recordFor wells pot f ∈ calculate_water_demand_gap fields wells pot := by
  unfold calculate_water_demand_gap
  refine (List.mem_insertionSort gapRel).mpr ?_
  exact List.mem_map_of_mem _ (List.mem_filter.mpr ⟨hf, by simpa using h3⟩)

/-- C6: every record of `calculate_water_demand_gap` has a nonnegative
water gap, a nonnegative post-drilling gap, and a post-drilling gap no
larger than the gap, provided the potential-well rows carry nonnegative
yields (true of every table `generate_potential_wells` produces, whose
yields are drawn from positive ranges). -/
theorem C6_gap_record_inequalities (fields : List Field) (wells : List Well)
    (pot : List PotentialWell)
    (hy : ∀ p ∈ pot, 0 ≤ p.expected_water_yield_m3h) :
    ∀ r ∈ calculate_water_demand_gap fields wells pot,
      0 ≤ r.water_gap_m3_day ∧ 0 ≤ r.gap_after_drilling ∧
        r.gap_after_drilling ≤ r.water_gap_m3_day := by
  intro r hr
  obtain ⟨f, hf, rfl⟩ := List.mem_map.mp ((List.mem_insertionSort gapRel).mp hr)
  have hgap : (0 : ℚ) ≤ waterGapOf wells f.coordinates := le_max_left 0 _
  have hs := potSupplyOf_nonneg (f := f) hy
  have hafter : (0 : ℚ) ≤ gapAfterOf wells pot f := by
    unfold gapAfterOf
    split
    · exact le_max_left 0 _
    · exact hgap
  have hle : gapAfterOf wells pot f ≤ waterGapOf wells f.coordinates := by
    unfold gapAfterOf
    split
    · exact max_le hgap (by linarith)
    · exact le_refl _
  exact ⟨roundTo_nonneg 1 hgap, roundTo_nonneg 1 hafter, roundTo_mono 1 hle⟩

/-- Witness for C6 at a concrete record. -/
theorem C6_gap_record_inequalities_witness :
    0 ≤ (recordFor [] [] triField).water_gap_m3_day ∧
    0 ≤ (recordFor [] [] triField).gap_after_drilling ∧
    (recordFor [] [] triField).gap_after_drilling ≤
      (recordFor [] [] triField).water_gap_m3_day :=
  C6_gap_record_inequalities [triField] [] [] (by simp)
    (recordFor [] [] triField)
    (recordFor_mem_calc (List.mem_singleton.mpr rfl) (by norm_num [triField]))

/-- C7: each field with a well-formed ring contributes its record to
`calculate_water_demand_gap`, and the record's priority tier is assigned
exactly by the documented rule on the (unrounded) gap percentage and the
assigned-site count; in particular a record with gap percentage above 70 but
zero assigned sites is never `Critical`. -/
theorem C7_priority_tier_rule (fields : List Field) (wells : List Well)
    (pot : List PotentialWell) (f : Field) (hf : f ∈ fields)
    (h3 : 3 ≤ f.coordinates.length) :
    recordFor wells pot f ∈ calculate_water_demand_gap fields wells pot ∧
    (recordFor wells pot f).priority_level =
      (if 70 < gapPctOf wells f.coordinates ∧ 0 < (assignedSites pot f).length
       then "Critical"
       else if 50 < gapPctOf wells f.coordinates ∧ 0 < (assignedSites pot f).length
       then "High"
       else if 30 < gapPctOf wells f.coordinates then "Medium"
       else "Low") ∧
    (70 < gapPctOf wells f.coordinates → (assignedSites pot f).length = 0 →
      (recordFor wells pot f).priority_level ≠ "Critical") := by
  refine ⟨recordFor_mem_calc hf h3, rfl, ?_⟩
  intro hpct hzero
  have h70 : ¬(70 < gapPctOf wells f.coordinates ∧ 0 < (assignedSites pot f).length) := by
    rw [hzero]
    simp
  have h50 : ¬(50 < gapPctOf wells f.coordinates ∧ 0 < (assignedSites pot f).length) := by
    rw [hzero]
    simp
  show tierOf (gapPctOf wells f.coordinates) (assignedSites pot f).length ≠ "Critical"
  unfold tierOf
  rw [hzero, if_neg (by simp), if_neg (by simp)]
  split
  · intro hc
    exact absurd hc (by simp)
  · intro hc
    exact absurd hc (by simp)

/-- Witness for C7 at a concrete field. -/
theorem C7_priority_tier_rule_witness :
    (recordFor [] [] triField).priority_level =
      (if 70 < gapPctOf [] triField.coordinates ∧ 0 < (assignedSites [] triField).length
       then "Critical"
       else if 50 < gapPctOf [] triField.coordinates ∧ 0 < (assignedSites [] triField).length
       then "High"
       else if 30 < gapPctOf [] triField.coordinates then "Medium"
       else "Low") :=
  (C7_priority_tier_rule [triField] [] [] triField (List.mem_singleton.mpr rfl)
    (by norm_num [triField])).2.1

/-- C9: a field whose ring is missing or has fewer than 3 vertices is
skipped by both passes without affecting the rest: with the same per-field
quota, the sampling pass over `pre ++ [bad] ++ post` produces exactly the
state of the pass over `pre ++ post`, and the demand-gap output over
`pre ++ [bad] ++ post` equals the output over `pre ++ post`.  Both embedded
functions are total, so no exception is modelled or needed. -/
theorem C9_short_ring_fields_skipped (pre post : List Field) (bad : Field)
    (wells : List Well) (quota : ℕ) (draws : ℕ → Draw)
    (pot : List PotentialWell) (hbad : bad.coordinates.length < 3) :
    genPool (pre ++ bad :: post) wells quota draws =
      genPool (pre ++ post) wells quota draws ∧
    calculate_water_demand_gap (pre ++ bad :: post) wells pot =
      calculate_water_demand_gap (pre ++ post) wells pot := by
  constructor
  · unfold genPool
    rw [List.foldl_append, List.foldl_append, List.foldl_cons]
    have hstep : genStep wells quota draws
        (List.foldl (genStep wells quota draws) ⟨[], 0⟩ pre) bad =
        List.foldl (genStep wells quota draws) ⟨[], 0⟩ pre := by
      unfold genStep
      rw [if_pos hbad]
    rw [hstep]
  · unfold calculate_water_demand_gap
    have hfil : (pre ++ bad :: post).filter (fun f => 3 ≤ f.coordinates.length) =
        (pre ++ post).filter (fun f => 3 ≤ f.coordinates.length) := by
      rw [List.filter_append, List.filter_append, List.filter_cons]
      have hb : decide (3 ≤ bad.coordinates.length) = false := by
        simpa using Nat.not_le.mpr hbad
      rw [hb]
      simp
    rw [hfil]

/-- A field with a two-vertex ring, skipped by both passes. -/
def badField : Field := ⟨"Bad", "R", [(0, 0), (0, 1)]⟩

/-- Witness for C9 at a concrete input. -/
theorem C9_short_ring_fields_skipped_witness :
    calculate_water_demand_gap [badField, triField] [] [] =
      calculate_water_demand_gap [triField] [] [] :=
  (C9_short_ring_fields_skipped [] [triField] badField [] 1 (fun _ => insideDraw)
    [] (by norm_num [badField])).2

/-- C10: the potential sites assigned to a field in
`calculate_water_demand_gap` are exactly the candidate rows whose
`field_name` string equals the field's name; hence two fields with equal
names receive the identical assigned-site set, the identical assigned-site
count, and the identical additional-supply figure — each counting the other
field's sites. -/
theorem C10_assignment_by_name_matching (pot : List PotentialWell)
    (wells : List Well) (f g : Field) (s : PotentialWell)
    (h : f.name = g.name) :
    (s ∈ assignedSites pot f ↔ s ∈ pot ∧ s.field_name = f.name) ∧
    assignedSites pot f = assignedSites pot g ∧
    (recordFor wells pot f).potential_wells_available =
      (recordFor wells pot g).potential_wells_available ∧
    (recordFor wells pot f).potential_additional_supply_m3_day =
      (recordFor wells pot g).potential_additional_supply_m3_day := by
  have hsets : assignedSites pot f = assignedSites pot g := by
    unfold assignedSites
    exact List.filter_congr fun p _ => by rw [h]
  refine ⟨?_, hsets, ?_, ?_⟩
  · unfold assignedSites
    simp [List.mem_filter]
  · show (assignedSites pot f).length = (assignedSites pot g).length
    rw [hsets]
  · show roundTo (potSupplyOf pot f) 1 = roundTo (potSupplyOf pot g) 1
    unfold potSupplyOf
    rw [hsets]

/-- A field sharing its name with `dupFieldA` but with different geometry. -/
def dupFieldA : Field := ⟨"Dup", "A", [(0, 0), (0, 1), (1, 0)]⟩

/-- A second field with the same name as `dupFieldA`. -/
def dupFieldB : Field := ⟨"Dup", "B", [(5, 5), (5, 6), (6, 5)]⟩

/-- A candidate row whose `field_name` matches both duplicate fields. -/
def dupSite : PotentialWell :=
  ⟨"POT-0001", 0, 0, "Dup", "A", 80, .medium, 3 / 4, 10, 136000, 96000, 5 / 2⟩

/-- Witness for C10 at a concrete duplicate-name pair. -/
theorem C10_assignment_by_name_matching_witness :
    assignedSites [dupSite] dupFieldA = assignedSites [dupSite] dupFieldB :=
  (C10_assignment_by_name_matching [dupSite] [] dupFieldA dupFieldB dupSite rfl).2.1

end Geodash
